import Mathlib

/-!
Verification of the resilient generation-backend router of the
pepetopia-core repository: catalog discovery, identifier scoring,
failover execution and response normalization, as implemented in
`twitter_bot/src/gemini_service.py`, `twitter_bot/src/ai_engine.py`,
`telegram_bot/src/services/gemini_service.py` and
`investor_bot/src/services/summarizer.py`.

Python strings are modelled as Lean `String` / `List Char`, Python
decimal version numbers and scores as exact decimals (`Dec`, with
rational semantics via `Dec.toQ`), Python exceptions as explicit error
values, and network calls as environment functions supplied to the
embedded control loops.
-/

namespace Router

/-- Exact decimal number `num / 10 ^ k`: the value carried by the Python
float scores and version numbers of the repository.  All operations are
integer arithmetic, so concrete terms evaluate by kernel reduction. -/
structure Dec where
  num : Int
  k : Nat
  deriving Repr, DecidableEq

namespace Dec

/-- The decimal with integer value `n`. -/
def ofInt (n : Int) : Dec := ⟨n, 0⟩

/-- Multiplication by an integer constant (`score * 100`). -/
def scale (a : Dec) (c : Int) : Dec := ⟨a.num * c, a.k⟩

/-- Addition of an integer constant (`score += bonus`). -/
def addInt (a : Dec) (n : Int) : Dec := ⟨a.num + n * 10 ^ a.k, a.k⟩

/-- Value-level strict comparison, by cross multiplication. -/
def blt (a b : Dec) : Bool := a.num * 10 ^ b.k < b.num * 10 ^ a.k

/-- Value-level equality, by cross multiplication. -/
def beqv (a b : Dec) : Bool := a.num * 10 ^ b.k == b.num * 10 ^ a.k

/-- Rational value of a decimal. -/
def toQ (a : Dec) : ℚ := (a.num : ℚ) / 10 ^ a.k

end Dec

/-- Python's `pat in s` substring test, over character lists. -/
def hasSubstr : List Char → List Char → Bool
  | [], pat => pat.isEmpty
  | h :: t, pat => pat.isPrefixOf (h :: t) || hasSubstr t pat

/-- Python's `pat in s` substring test on strings. -/
def strContains (s pat : String) : Bool :=
  hasSubstr s.toList pat.toList

/-- Python's `s.lower()` (ASCII, which covers every identifier the
upstream catalog produces). -/
def strLower (s : String) : String := String.mk (s.toList.map Char.toLower)

/-- Python's `name.replace("models/", "")`: left-to-right deletion of
every occurrence of the literal `models/`. -/
def stripModelsPfx : List Char → List Char
  | 'm' :: 'o' :: 'd' :: 'e' :: 'l' :: 's' :: '/' :: rest => stripModelsPfx rest
  | c :: rest => c :: stripModelsPfx rest
  | [] => []

/-- `name.replace("models/", "")` on strings. -/
def replaceModelsPfx (s : String) : String := String.mk (stripModelsPfx s.toList)

/-- The backquote character (code point 96), the fence delimiter char. -/
def btick : Char := Char.ofNat 96

/-- Python's code-point-wise string comparison, on character lists. -/
def listLtB : List Char → List Char → Bool
  | [], [] => false
  | [], _ :: _ => true
  | _ :: _, [] => false
  | a :: as, b :: bs =>
      if a < b then true else if b < a then false else listLtB as bs

/-- Python's `s1 < s2` on strings. -/
def strLtB (s t : String) : Bool := listLtB s.toList t.toList

/-- Numeric value of a run of decimal digit characters. -/
def digitsVal (l : List Char) : Nat :=
  l.foldl (fun n c => n * 10 + (c.toNat - 48)) 0

/-- Matches the regex fragment `\d+(\.\d+)?` at the head of the input and
returns its decimal value: an integer part, optionally followed by a dot
and a fractional part.  A dot not followed by a digit is not consumed,
mirroring the regex groups used in the repository. -/
def parseVer (cs : List Char) : Option Dec :=
  let p := cs.span Char.isDigit
  if p.1 = [] then none
  else
    match p.2 with
    | '.' :: r2 =>
        let f := (r2.span Char.isDigit).1
        if f = [] then some (Dec.ofInt (digitsVal p.1))
        else some ⟨(digitsVal p.1 : Int) * 10 ^ f.length + digitsVal f, f.length⟩
    | _ => some (Dec.ofInt (digitsVal p.1))

/-- Scans for the first position where `re.search(r'gemini-(\d+(\.\d+)?)')`
matches: a literal `gemini-` marker immediately followed by digits.  A
`gemini-` occurrence not followed by a digit is skipped, as the regex
engine backtracks past it. -/
def findVer : List Char → Option Dec
  | [] => none
  | c :: rest =>
      if "gemini-".toList.isPrefixOf (c :: rest) then
        match parseVer (List.drop 7 (c :: rest)) with
        | some v => some v
        | none => findVer rest
      else findVer rest

/-- Version extraction shared by the `gemini-<version>` regexes of the
repository (`twitter_bot` `_extract_version`, `ai_engine`
`_calculate_model_score`, `telegram_bot` `model_scorer`): they differ
only in cosmetic group syntax and yield the same numeric value. -/
def extract_version_of (s : String) : Option Dec :=
  findVer s.toList

/-- Stable insertion preserving descending order by `lt`: the new element
goes before the first strictly smaller element, hence after all earlier
elements with an equal key.  Together with `sortDescBy` this models
Python's stable `sort(key=..., reverse=True)`. -/
def insertDescBy (lt : α → α → Bool) (x : α) : List α → List α
  | [] => [x]
  | y :: ys => if lt y x then x :: y :: ys else y :: insertDescBy lt x ys

/-- Python's stable `list.sort(key=..., reverse=True)` as insertion sort:
elements are inserted left to right, so equal-key elements keep their
original relative order. -/
def sortDescBy (lt : α → α → Bool) (l : List α) : List α :=
  l.foldl (fun acc x => insertDescBy lt x acc) []

end Router

namespace AiEngine

open Router

/-- Embedding of `ModelChain._calculate_model_score` from
`twitter_bot/src/ai_engine.py`: version times 100, an `elif` chain of
tier bonuses (pro 10, flash 5, ultra 20), a +1 experimental/preview
bonus, and a -500 penalty for `vision` models that are not `pro`.  All
substring tests are case-sensitive, as in the source. -/
def calculate_model_score (model_name : String) : Dec :=
  let base := match extract_version_of model_name with
    | some v => v.scale 100
    | none => Dec.ofInt 0
  base.addInt
    ((if strContains model_name "pro" then 10
      else if strContains model_name "flash" then 5
      else if strContains model_name "ultra" then 20
      else 0)
     + (if strContains model_name "exp" || strContains model_name "preview"
        then 1 else 0)
     - (if strContains model_name "vision" && !(strContains model_name "pro")
        then 500 else 0))

end AiEngine

namespace TelegramBot

open Router

/-- Embedding of the local `model_scorer` inside
`telegram_bot/src/services/gemini_service.py` `initialize`: the name is
lowercased, version weighs 1000, `pro` +50, `flash` +20 (independent
`if`s), `latest` +10, `exp`/`preview` +5, `lite` -50, `8b` -50. -/
def model_scorer (model_name : String) : Dec :=
  let name := strLower model_name
  let base := match extract_version_of name with
    | some v => v.scale 1000
    | none => Dec.ofInt 0
  base.addInt
    ((if strContains name "pro" then 50 else 0)
     + (if strContains name "flash" then 20 else 0)
     + (if strContains name "latest" then 10 else 0)
     + (if strContains name "exp" || strContains name "preview" then 5 else 0)
     - (if strContains name "lite" then 50 else 0)
     - (if strContains name "8b" then 50 else 0))

end TelegramBot

namespace TwitterBot

open Router

/-- A model record returned by the upstream listing endpoint: a name and
the declared `supported_generation_methods`. -/
structure RawModel where
  name : String
  methods : List String
  deriving Repr, DecidableEq

/-- Embedding of `GeminiService._extract_version` from
`twitter_bot/src/gemini_service.py`: `re.search(r'gemini-(\d+(?:\.\d+)?)',
name, re.IGNORECASE)`, returning `0.0` when there is no match.  The
IGNORECASE flag is modelled by lowercasing the name first. -/
def extract_version (name : String) : Dec :=
  (extract_version_of (strLower name)).getD (Dec.ofInt 0)

/-- The constant `GeminiService._FALLBACK_MODEL`. -/
def FALLBACK_MODEL : String := "gemini-1.5-flash"

/-- Strict comparison of the sort keys `(extract_version x, x)` used by
`found_models.sort(key=..., reverse=True)`: lexicographic on the version
value and then on the identifier string. -/
def keyLt (a b : String) : Bool :=
  (extract_version a).blt (extract_version b)
    || ((extract_version a).beqv (extract_version b) && strLtB a b)

/-- Embedding of `GeminiService.list_models` (cache cold): on an upstream
error it returns the empty list; otherwise it keeps `gemini` models that
support `generateContent`, strips the `models/` prefix, returns the empty
list when none survive, and otherwise sorts by `(version, name)`
descending via `reverse=True`. -/
def list_models (upstreamError : Bool) (raw : List RawModel) : List String :=
  if upstreamError then []
  else
    let found := (raw.filter (fun m =>
        strContains (strLower m.name) "gemini"
          && m.methods.contains "generateContent")).map
      (fun m => replaceModelsPfx m.name)
    if found = [] then []
    else sortDescBy keyLt found

/-- Embedding of `GeminiService.select_newest_model`: the head of the
discovered list, or the fallback when discovery returned nothing. -/
def select_newest_model (upstreamError : Bool) (raw : List RawModel) : String :=
  match list_models upstreamError raw with
  | [] => FALLBACK_MODEL
  | best :: _ => best

/-- Result of one generation attempt against one model: the response text
(`response.text`, possibly empty) or the message of a raised exception. -/
inductive AttRes where
  | ok (text : String)
  | err (msg : String)
  deriving Repr, DecidableEq

/-- The "Smart Switching Logic" classification of
`GeminiService._generate_with_retry`: an error message containing one of
`429`, `RESOURCE_EXHAUSTED`, `404`, `NOT_FOUND` causes an immediate
switch to the next model. -/
def isSwitchErr (msg : String) : Bool :=
  strContains msg "429" || strContains msg "RESOURCE_EXHAUSTED"
    || strContains msg "404" || strContains msg "NOT_FOUND"

/-- Outcome of the inner `for attempt in range(retries)` loop of
`_generate_with_retry` for one model: the successful text if any, the
number of attempts issued, and the `asyncio.sleep(1 + attempt)` delays
performed, in order. -/
structure InnerOut where
  success : Option String
  count : Nat
  sleeps : List Nat
  deriving Repr, DecidableEq

/-- The inner retry loop for one model.  `att i` is the result of attempt
number `i`: a truthy `response.text` returns it; a falsy text falls
through to the next attempt without sleeping; a switch-classified error
breaks out; any other error sleeps `1 + i` seconds and retries. -/
def innerLoop (att : Nat → AttRes) : Nat → Nat → InnerOut
  | 0, _ => ⟨none, 0, []⟩
  | fuel + 1, i =>
      match att i with
      | .ok t =>
          if t = "" then
            let r := innerLoop att fuel (i + 1)
            ⟨r.success, r.count + 1, r.sleeps⟩
          else ⟨some t, 1, []⟩
      | .err m =>
          if isSwitchErr m then ⟨none, 1, []⟩
          else
            let r := innerLoop att fuel (i + 1)
            ⟨r.success, r.count + 1, (1 + i) :: r.sleeps⟩

/-- Walks `models_to_try` in order, running the inner retry loop on each
model.  Returns the first success paired with its model, the full attempt
trace (one entry per generation call), and the sleep trace. -/
def runModels (att : String → Nat → AttRes) (retries : Nat) :
    List String → Option (String × String) × List String × List (String × Nat)
  | [] => (none, [], [])
  | m :: rest =>
      let r := innerLoop (att m) retries 0
      match r.success with
      | some t =>
          (some (t, m), List.replicate r.count m, r.sleeps.map (fun s => (m, s)))
      | none =>
          let (o, tr, sl) := runModels att retries rest
          (o, List.replicate r.count m ++ tr,
            r.sleeps.map (fun s => (m, s)) ++ sl)

/-- The sentinel returned when every attempted model failed. -/
def allFailedOutcome : String × String :=
  ("⚠️ Error: All available AI models failed to respond.", "None")

/-- Embedding of `GeminiService._generate_with_retry` (with its attempt
and sleep traces): after selecting the primary model it tries only
`[primary]`, extended with the fallback when the primary is not already
the fallback, and returns the all-failed sentinel when both fail.  Every
generation error is consumed by the loop, so the function is total. -/
def generate_with_retry (apiKey : Bool) (upstreamError : Bool)
    (raw : List RawModel) (att : String → Nat → AttRes) (retries : Nat := 3) :
    (String × String) × List String × List (String × Nat) :=
  if !apiKey then (("⚠️ Error: API Key missing.", "unknown-model"), [], [])
  else
    let primary := select_newest_model upstreamError raw
    let models_to_try :=
      if primary = FALLBACK_MODEL then [primary] else [primary, FALLBACK_MODEL]
    match runModels att retries models_to_try with
    | (some res, tr, sl) => (res, tr, sl)
    | (none, tr, sl) => (allFailedOutcome, tr, sl)

end TwitterBot

namespace AiEngine

open Router

/-- Embedding of `ModelChain._fetch_and_rank_models` from
`twitter_bot/src/ai_engine.py` (`raw` holds the listed `m.name` values):
on an API error the three-model fallback list; otherwise `gemini`,
non-`embedding` names with `models/` stripped, a two-model fallback when
nothing survives, and otherwise a stable descending sort by
`_calculate_model_score`. -/
def fetch_and_rank_models (apiError : Bool) (raw : List String) : List String :=
  if apiError then ["gemini-1.5-pro", "gemini-1.5-flash", "gemini-1.0-pro"]
  else
    let gemini_models :=
      (raw.filter (fun n =>
        strContains n "gemini" && !(strContains n "embedding"))).map
        replaceModelsPfx
    if gemini_models = [] then ["gemini-1.5-pro", "gemini-1.5-flash"]
    else
      sortDescBy
        (fun a b => (calculate_model_score a).blt (calculate_model_score b))
        gemini_models

/-- The terminal failure string of `analyze_and_draft`. -/
def systemFailure : String :=
  "🚫 SYSTEM FAILURE: All AI models are currently unavailable. Please try again later."

/-- Embedding of the failover loop of `analyze_and_draft` from
`twitter_bot/src/ai_engine.py`, with its attempt trace.  `att m` is the
formatted result of one generation call against model `m`, or the message
of any raised exception (generation error or `json.loads` failure): the
loop returns the first success and on any exception simply continues with
the next model, ending in the terminal failure string. -/
def analyze_and_draft (att : String → Except String String) :
    List String → String × List String
  | [] => (systemFailure, [])
  | m :: rest =>
      match att m with
      | .ok out => (out, [m])
      | .error _ =>
          let r := analyze_and_draft att rest
          (r.1, m :: r.2)

end AiEngine

namespace TelegramBot

open Router

/-- Result of one generation call in the telegram bot, classified by the
exception types caught in `_generate_with_retry`
(`google.api_core.exceptions`). -/
inductive TeleRes where
  | ok (text : String)
  | resourceExhausted
  | internalServerError
  | serviceUnavailable
  | invalidArgument
  | otherError
  deriving Repr, DecidableEq

/-- The sentinel returned when every model in the chain failed. -/
def teleAllFailed : String × String :=
  ("🐸 My brain is buffering... (Global neural outage, please try again in 5 mins.)",
   "None")

/-- Embedding of `GeminiService._generate_with_retry` from
`telegram_bot/src/services/gemini_service.py`, with its attempt trace:
one generation call per model of the chain; a truthy `response.text`
returns immediately; quota, server-side, invalid-argument and unexpected
errors all `continue` with the next model; a falsy text also falls
through to the next model.  No model is ever called twice and no delay is
ever taken. -/
def generate_with_retry (att : String → TeleRes) :
    List String → (String × String) × List String
  | [] => (teleAllFailed, [])
  | m :: rest =>
      match att m with
      | .ok t =>
          if t = "" then
            let r := generate_with_retry att rest
            (r.1, m :: r.2)
          else ((t, m), [m])
      | _ =>
          let r := generate_with_retry att rest
          (r.1, m :: r.2)

end TelegramBot

namespace InvestorBot

open Router

/-- Model capability tiers of `summarizer.py` (`ModelTier`). -/
inductive ModelTier where
  | nano
  | flash
  | pro
  | ultra
  deriving Repr, DecidableEq

/-- The `IntEnum` value of a tier. -/
def ModelTier.val : ModelTier → Nat
  | .nano => 0
  | .flash => 1
  | .pro => 2
  | .ultra => 3

/-- A model record from the upstream listing endpoint, as consumed by
`ModelDiscoveryService.discover_models`. -/
structure SumRawModel where
  name : String
  methods : List String
  deriving Repr, DecidableEq

/-- Parsed model information (`GeminiModelInfo`). -/
structure GeminiModelInfo where
  name : String
  version : Dec
  tier : ModelTier
  is_experimental : Bool
  deriving Repr, DecidableEq

/-- The `VERSION_PATTERN` regex `gemini[- ]?(\d+(?:\.\d+)?)` of
`summarizer.py`: like the shared pattern but with an optional `-` or
space separator.  A `gemini` occurrence not followed by an optionally
separated digit is skipped by backtracking. -/
def findVerSum : List Char → Option Dec
  | [] => none
  | c :: rest =>
      if "gemini".toList.isPrefixOf (c :: rest) then
        let after := List.drop 6 (c :: rest)
        let cand :=
          match after with
          | '-' :: r => parseVer r
          | ' ' :: r => parseVer r
          | _ => parseVer after
        match cand with
        | some v => some v
        | none => findVerSum rest
      else findVerSum rest

/-- Tier detection of `_parse_model_info`: the `TIER_PATTERNS` dict is
iterated in insertion order ULTRA, PRO, FLASH, NANO, with FLASH as the
default tier. -/
def detectTier (lowName : String) : ModelTier :=
  if strContains lowName "ultra" then .ultra
  else if strContains lowName "pro" then .pro
  else if strContains lowName "flash" then .flash
  else if strContains lowName "nano" then .nano
  else .flash

/-- Embedding of `ModelDiscoveryService._parse_model_info`: version via
`VERSION_PATTERN` with default `1.0`, tier via `TIER_PATTERNS`, and the
`EXPERIMENTAL_PATTERN` regex `exp|experimental|preview` (the alternation
matches whenever `exp` or `preview` occurs). -/
def parse_model_info (name : String) : GeminiModelInfo :=
  let lowName := strLower name
  { name := name
    version := (findVerSum lowName.toList).getD (Dec.ofInt 1)
    tier := detectTier lowName
    is_experimental := strContains lowName "exp" || strContains lowName "preview" }

/-- The `sort_key` property of `GeminiModelInfo`:
`(version, tier.value, experimental_penalty)` with penalty `-1` for
experimental models. -/
def sort_key (m : GeminiModelInfo) : Dec × Nat × Int :=
  (m.version, m.tier.val, if m.is_experimental then -1 else 0)

/-- Strict lexicographic comparison of `sort_key` tuples. -/
def sumKeyLt (a b : GeminiModelInfo) : Bool :=
  (sort_key a).1.blt (sort_key b).1
    || ((sort_key a).1.beqv (sort_key b).1
        && ((sort_key a).2.1 < (sort_key b).2.1
            || ((sort_key a).2.1 == (sort_key b).2.1
                && (sort_key a).2.2 < (sort_key b).2.2)))

/-- The `FALLBACK_MODELS` constant of `ModelDiscoveryService`. -/
def FALLBACK_MODELS : List String :=
  ["models/gemini-2.0-flash", "models/gemini-1.5-pro", "models/gemini-1.5-flash"]

/-- Embedding of `ModelDiscoveryService.discover_models`: on an API error
the fallback list; otherwise `generateContent`-capable `gemini` models
parsed to `GeminiModelInfo`, sorted descending by `sort_key` (stable), and
their names returned — or the fallback list when nothing survived. -/
def discover_models (apiError : Bool) (raw : List SumRawModel) : List String :=
  if apiError then FALLBACK_MODELS
  else
    let gemini_models :=
      (raw.filter (fun m =>
        m.methods.contains "generateContent"
          && strContains (strLower m.name) "gemini")).map
        (fun m => parse_model_info m.name)
    let sorted_models := sortDescBy sumKeyLt gemini_models
    let model_names := sorted_models.map (fun m => m.name)
    if model_names = [] then FALLBACK_MODELS else model_names

end InvestorBot

namespace InvestorBot

open Router

/-- A decoded JSON value as produced by `json.loads` in `_parse_response`:
strings, integers, floats, the non-finite constants, booleans, null,
arrays and objects.  A float literal is kept as its exact decimal value
`(-1)^neg * m * 10^e`; rounding it to an IEEE double (which collapses
literals beyond 17 significant digits and overflows beyond about 1.8e308)
is idealized away, exactly as for the float scores elsewhere in this
development. -/
inductive PyJson where
  | jstr (s : String)
  | jnum (n : Int)
  | jfloat (neg : Bool) (m : Nat) (e : Int)
  | jnan
  | jinf (neg : Bool)
  | jbool (b : Bool)
  | jnull
  | jarr (l : List PyJson)
  | jobj (ms : List (String × PyJson))

/-- A lowercase hexadecimal digit. -/
def hexDigitChar (n : Nat) : Char :=
  if n < 10 then Char.ofNat (48 + n) else Char.ofNat (87 + n)

/-- One character of Python's `repr` of a string, given the chosen quote
`q`: backslash and the quote are escaped, newline/return/tab use their
letter escapes, other ASCII control characters (and DEL) use `\xhh`.
Non-ASCII characters are treated as printable and kept literal (the
`unicodedata` printability classes Python consults are idealized away). -/
def pyEscChar (q c : Char) : List Char :=
  if c = '\\' then ['\\', '\\']
  else if c = q then ['\\', q]
  else if c = '\n' then ['\\', 'n']
  else if c = '\r' then ['\\', 'r']
  else if c = '\t' then ['\\', 't']
  else if c.toNat < 32 || c.toNat = 127 then
    ['\\', 'x', hexDigitChar (c.toNat / 16), hexDigitChar (c.toNat % 16)]
  else [c]

/-- Python's `repr` of a string: single quotes, switching to double
quotes when the string contains a single quote but no double quote, with
the escaping of `pyEscChar`. -/
def pyReprStr (s : String) : String :=
  let cs := s.toList
  let q := if cs.contains '\'' && !(cs.contains '"') then '"' else '\''
  String.mk (q :: (cs.map (pyEscChar q)).flatten ++ [q])

/-- Strips factors of 10 from a mantissa, returning the reduced mantissa
and the number of factors removed (the first argument is fuel). -/
def stripZeros : Nat → Nat → Nat × Nat
  | 0, m => (m, 0)
  | fuel + 1, m =>
      if m % 10 = 0 && m != 0 then
        let p := stripZeros fuel (m / 10)
        (p.1, p.2 + 1)
      else (m, 0)

/-- The decimal digit characters of a natural number. -/
def natDigits (n : Nat) : List Char := (toString n).toList

/-- An exponent printed with at least two digits, as Python does. -/
def pad2 (n : Nat) : String :=
  if n < 10 then "0" ++ toString n else toString n

/-- Python's `str` of the float with exact decimal value
`(-1)^neg * m * 10^e`: the shortest digit string (trailing zeros of the
mantissa stripped), rendered in fixed notation when the leading digit
sits at a decimal position in `[-4, 16)` and otherwise in scientific
notation with a sign and a two-digit-minimum exponent.  This is the
shortest-round-trip repr of the corresponding double whenever the literal
survives IEEE rounding unchanged (the case for the short literals the
backends emit). -/
def pyFloatStr (neg : Bool) (m : Nat) (e : Int) : String :=
  if m = 0 then (if neg then "-0.0" else "0.0")
  else
    let p0 := stripZeros m m
    let e2 : Int := e + p0.2
    let ds := natDigits p0.1
    let pos : Int := e2 + ds.length - 1
    let sign := if neg then "-" else ""
    if -4 ≤ pos && pos < 16 then
      if 0 ≤ e2 then
        sign ++ String.mk ds ++ String.mk (List.replicate e2.toNat '0') ++ ".0"
      else
        let f : Nat := (-e2).toNat
        if f < ds.length then
          sign ++ String.mk (ds.take (ds.length - f)) ++ "."
            ++ String.mk (ds.drop (ds.length - f))
        else
          sign ++ "0." ++ String.mk (List.replicate (f - ds.length) '0')
            ++ String.mk ds
    else
      let mant := String.mk (ds.take 1)
        ++ (if ds.length > 1 then "." ++ String.mk (ds.drop 1) else "")
      sign ++ mant ++ "e" ++ (if pos < 0 then "-" else "+") ++ pad2 pos.natAbs

mutual

/-- Python's `repr` of a decoded JSON value (used by `str` on the
elements of a nested list or object). -/
def pyRepr : PyJson → String
  | .jstr s => pyReprStr s
  | .jnum n => toString n
  | .jfloat neg m e => pyFloatStr neg m e
  | .jnan => "nan"
  | .jinf true => "-inf"
  | .jinf false => "inf"
  | .jbool true => "True"
  | .jbool false => "False"
  | .jnull => "None"
  | .jarr l => "[" ++ pyReprList l ++ "]"
  | .jobj ms => "\x7b" ++ pyReprMembers ms ++ "\x7d"

/-- Comma-separated reprs of list elements. -/
def pyReprList : List PyJson → String
  | [] => ""
  | [x] => pyRepr x
  | x :: xs => pyRepr x ++ ", " ++ pyReprList xs

/-- Comma-separated `repr(key): repr(value)` pairs of a dict. -/
def pyReprMembers : List (String × PyJson) → String
  | [] => ""
  | [kv] => pyReprStr kv.1 ++ ": " ++ pyRepr kv.2
  | kv :: rest => pyReprStr kv.1 ++ ": " ++ pyRepr kv.2 ++ ", " ++ pyReprMembers rest

end

/-- Python's `str` of a decoded JSON value, as applied by
`_parse_response` (`str(item)` / `str(parsed)`): the string itself for a
string, otherwise the same text as `repr`. -/
def pyStrOf : PyJson → String
  | .jstr s => s
  | v => pyRepr v

/-- JSON insignificant whitespace. -/
def jsonWs (c : Char) : Bool :=
  [' ', '\t', '\n', '\r'].contains c

/-- Drops leading JSON whitespace. -/
def skipWs (l : List Char) : List Char := l.dropWhile jsonWs

/-- A single-letter JSON string escape. -/
def escChar (e : Char) : Option Char :=
  if e = 'n' then some '\n'
  else if e = 't' then some '\t'
  else if e = 'r' then some '\r'
  else if e = '"' then some '"'
  else if e = '\\' then some '\\'
  else if e = '/' then some '/'
  else if e = 'b' then some (Char.ofNat 8)
  else if e = 'f' then some (Char.ofNat 12)
  else none

/-- The value of one hexadecimal digit character. -/
def hexVal (c : Char) : Option Nat :=
  if c.isDigit then some (c.toNat - 48)
  else if 'a' ≤ c && c ≤ 'f' then some (c.toNat - 87)
  else if 'A' ≤ c && c ≤ 'F' then some (c.toNat - 55)
  else none

/-- The value of a four-hex-digit escape. -/
def hex4 (h1 h2 h3 h4 : Char) : Option Nat :=
  match hexVal h1, hexVal h2, hexVal h3, hexVal h4 with
  | some a, some b, some c, some d => some (((a * 16 + b) * 16 + c) * 16 + d)
  | _, _, _, _ => none

/-- Parses the body of a JSON string after the opening quote, returning
the decoded characters and the input after the closing quote.  Raw
control characters are rejected (`json.loads` strict mode); `\uXXXX`
escapes are decoded, with a high/low surrogate pair combined into one
code point as `json.loads` does.  A lone surrogate is accepted as Python
accepts it, but its character is idealized through `Char.ofNat` because a
Lean `Char` holds only Unicode scalar values.  The first argument is
fuel; every step consumes at least one character, so one unit per input
character plus one is always enough. -/
def pStrAux : Nat → List Char → Option (List Char × List Char)
  | 0, _ => none
  | _ + 1, [] => none
  | fuel + 1, c :: rest =>
      if c = '"' then some ([], rest)
      else if c = '\\' then
        match rest with
        | 'u' :: h1 :: h2 :: h3 :: h4 :: rest2 =>
            (match hex4 h1 h2 h3 h4 with
             | none => none
             | some code =>
                 if 0xD800 ≤ code && code ≤ 0xDBFF then
                   match rest2 with
                   | '\\' :: 'u' :: k1 :: k2 :: k3 :: k4 :: rest3 =>
                       (match hex4 k1 k2 k3 k4 with
                        | some low =>
                            if 0xDC00 ≤ low && low ≤ 0xDFFF then
                              (pStrAux fuel rest3).map (fun p =>
                                (Char.ofNat (0x10000 + (code - 0xD800) * 0x400
                                  + (low - 0xDC00)) :: p.1, p.2))
                            else
                              (pStrAux fuel rest2).map (fun p =>
                                (Char.ofNat code :: p.1, p.2))
                        | none =>
                            (pStrAux fuel rest2).map (fun p =>
                              (Char.ofNat code :: p.1, p.2)))
                   | _ =>
                       (pStrAux fuel rest2).map (fun p =>
                         (Char.ofNat code :: p.1, p.2))
                 else (pStrAux fuel rest2).map (fun p => (Char.ofNat code :: p.1, p.2)))
        | e :: rest2 =>
            match escChar e with
            | some d => (pStrAux fuel rest2).map (fun p => (d :: p.1, p.2))
            | none => none
        | [] => none
      else if c.toNat < 32 then none
      else (pStrAux fuel rest).map (fun p => (c :: p.1, p.2))

/-- The integer part of the JSON number grammar: a lone `0`, or a nonzero
digit followed by digits (a leading zero never absorbs further digits,
matching `json`'s `NUMBER_RE`). -/
def pIntPart : List Char → Option (List Char × List Char)
  | '0' :: r => some (['0'], r)
  | c :: r =>
      if c.isDigit then
        let p := (c :: r).span Char.isDigit
        some (p.1, p.2)
      else none
  | [] => none

/-- Parses a JSON number per `json`'s `NUMBER_RE`
(`-? (0 | [1-9][0-9]*) (\. [0-9]+)? ([eE] [+-]? [0-9]+)?`): an integer
when neither a fraction nor an exponent is present, otherwise a float
carried as its exact decimal value.  A dot or exponent marker not
followed by the digits the grammar requires is left unconsumed, as the
regex leaves it for the caller (which then fails on it). -/
def pNumber (cs : List Char) : Option (PyJson × List Char) :=
  let sp := match cs with
    | '-' :: r => (true, r)
    | _ => (false, cs)
  match pIntPart sp.2 with
  | none => none
  | some (ip, cs2) =>
      let fp := match cs2 with
        | '.' :: r =>
            let p := r.span Char.isDigit
            if p.1 = [] then (([] : List Char), cs2) else (p.1, p.2)
        | _ => (([] : List Char), cs2)
      let ep : Option Int × List Char := match fp.2 with
        | e :: r =>
            if e = 'e' || e = 'E' then
              let sr : Int × List Char := match r with
                | '+' :: r2 => (1, r2)
                | '-' :: r2 => (-1, r2)
                | _ => (1, r)
              let p := sr.2.span Char.isDigit
              if p.1 = [] then (none, fp.2)
              else (some (sr.1 * (digitsVal p.1 : Int)), p.2)
            else (none, fp.2)
        | [] => (none, fp.2)
      if fp.1 = [] && ep.1 = none then
        some (.jnum ((if sp.1 then -1 else 1) * (digitsVal ip : Int)), cs2)
      else
        some (.jfloat sp.1 (digitsVal (ip ++ fp.1))
          (ep.1.getD 0 - fp.1.length), ep.2)

/-- Inserts a key into a Python dict modelled as an association list:
an existing key keeps its position and takes the new value, a new key is
appended, as `dict` insertion order works. -/
def objInsert (k : String) (v : PyJson) : List (String × PyJson) → List (String × PyJson)
  | [] => [(k, v)]
  | kv :: rest => if kv.1 = k then (k, v) :: rest else kv :: objInsert k v rest

/-- Builds the dict from the members in textual order (duplicate keys:
first position, last value wins). -/
def buildObj (pairs : List (String × PyJson)) : List (String × PyJson) :=
  pairs.foldl (fun acc kv => objInsert kv.1 kv.2 acc) []

mutual

/-- Fuel-bounded recursive-descent parser for one JSON value, following
the `json.loads` scanner: string, array, object, the keyword literals,
the non-finite constants `NaN`/`Infinity`/`-Infinity`, or a number. -/
def pJson : Nat → List Char → Option (PyJson × List Char)
  | 0, _ => none
  | fuel + 1, l =>
      match skipWs l with
      | [] => none
      | c :: rest =>
          if c = '"' then
            (pStrAux (rest.length + 1) rest).map (fun p => (.jstr (String.mk p.1), p.2))
          else if c = '[' then (pElems fuel (skipWs rest)).map (fun p => (.jarr p.1, p.2))
          else if c = '{' then
            (pObj fuel (skipWs rest)).map (fun p => (.jobj (buildObj p.1), p.2))
          else if "true".toList.isPrefixOf (c :: rest) then
            some (.jbool true, (c :: rest).drop 4)
          else if "false".toList.isPrefixOf (c :: rest) then
            some (.jbool false, (c :: rest).drop 5)
          else if "null".toList.isPrefixOf (c :: rest) then
            some (.jnull, (c :: rest).drop 4)
          else if "NaN".toList.isPrefixOf (c :: rest) then
            some (.jnan, (c :: rest).drop 3)
          else if "Infinity".toList.isPrefixOf (c :: rest) then
            some (.jinf false, (c :: rest).drop 8)
          else if "-Infinity".toList.isPrefixOf (c :: rest) then
            some (.jinf true, (c :: rest).drop 9)
          else pNumber (c :: rest)

/-- Fuel-bounded parser for an array body, positioned after `[` with
whitespace skipped: an immediate close or an element sequence. -/
def pElems : Nat → List Char → Option (List PyJson × List Char)
  | 0, _ => none
  | fuel + 1, l =>
      match l with
      | [] => none
      | c :: rest =>
          if c = ']' then some ([], rest)
          else pSeq fuel (c :: rest)

/-- Fuel-bounded parser for a non-empty element sequence: a value, then a
comma (requiring a further element, so a trailing comma fails as in
`json.loads`) or the closing bracket. -/
def pSeq : Nat → List Char → Option (List PyJson × List Char)
  | 0, _ => none
  | fuel + 1, l =>
      match pJson fuel l with
      | none => none
      | some (v, r) =>
          match skipWs r with
          | [] => none
          | d :: r2 =>
              if d = ',' then
                (pSeq fuel (skipWs r2)).map (fun p => (v :: p.1, p.2))
              else if d = ']' then some ([v], r2)
              else none

/-- Fuel-bounded parser for an object body, positioned after `{` with
whitespace skipped: an immediate close or a member sequence. -/
def pObj : Nat → List Char → Option (List (String × PyJson) × List Char)
  | 0, _ => none
  | fuel + 1, l =>
      match l with
      | [] => none
      | c :: rest =>
          if c = '}' then some ([], rest)
          else pMembers fuel (c :: rest)

/-- Fuel-bounded parser for a non-empty member sequence: a double-quoted
key, a colon, a value, and then a comma (requiring a further member, so a
trailing comma fails as in `json.loads`) or the closing brace. -/
def pMembers : Nat → List Char → Option (List (String × PyJson) × List Char)
  | 0, _ => none
  | fuel + 1, l =>
      match l with
      | [] => none
      | c :: rest =>
          if c = '"' then
            match pStrAux (rest.length + 1) rest with
            | none => none
            | some (kcs, r1) =>
                match skipWs r1 with
                | ':' :: r2 =>
                    (match pJson fuel r2 with
                     | none => none
                     | some (v, r3) =>
                         match skipWs r3 with
                         | ',' :: r4 =>
                             (pMembers fuel (skipWs r4)).map (fun p =>
                               ((String.mk kcs, v) :: p.1, p.2))
                         | '}' :: r4 => some ([(String.mk kcs, v)], r4)
                         | _ => none)
                | _ => none
          else none

end

/-- `json.loads`: parse one value with enough fuel for the whole input and
require only whitespace to remain. -/
def jsonLoads (l : List Char) : Option PyJson :=
  match pJson (l.length + 2) l with
  | some (v, rest) => if skipWs rest = [] then some v else none
  | none => none

/-- Python's `str.strip()` whitespace set. -/
def pySpace (c : Char) : Bool :=
  [' ', '\t', '\n', '\r', Char.ofNat 11, Char.ofNat 12].contains c

/-- Python's `text.strip()`. -/
def pyStrip (l : List Char) : List Char :=
  ((l.dropWhile pySpace).reverse.dropWhile pySpace).reverse

/-- The markdown-fence removal steps of `_parse_response`: strip, drop a
leading triple-backtick-json marker (7 characters), drop a remaining
leading triple backtick (3 characters), drop a trailing triple backtick,
and strip again. -/
def stripFences (l : List Char) : List Char :=
  let t := pyStrip l
  let t := if "```json".toList.isPrefixOf t then t.drop 7 else t
  let t := if "```".toList.isPrefixOf t then t.drop 3 else t
  let t := if "```".toList.isSuffixOf t then t.take (t.length - 3) else t
  pyStrip t

/-- Embedding of `CommitSummarizer._parse_response`: fence stripping,
`json.loads` (a parse failure raises `json.JSONDecodeError`, modelled as
the `Except` error), then a list is converted element-wise by `str`, a
bare string is wrapped in a singleton, and any other value becomes the
singleton of its `str` form. -/
def parse_response (l : List Char) : Except Unit (List String) :=
  match jsonLoads (stripFences l) with
  | none => .error ()
  | some (.jarr xs) => .ok (xs.map pyStrOf)
  | some (.jstr s) => .ok [s]
  | some v => .ok [pyStrOf v]

/-- The canonical `json.dumps`-style serialization of a list of strings
(no escapes; used for payloads whose characters need none), the inner
part: elements and the closing bracket. -/
def elemsChars : List String → List Char
  | [] => [']']
  | [s] => '"' :: s.toList ++ '"' :: [']']
  | s :: rest => '"' :: s.toList ++ '"' :: ',' :: ' ' :: elemsChars rest

/-- The canonical serialization of a JSON array of strings. -/
def serializeStrList (x : List String) : List Char := '[' :: elemsChars x

/-- A code fence with the `json` language tag around a payload. -/
def wrapJsonFence (s : List Char) : List Char :=
  "```json\n".toList ++ s ++ "\n```".toList

/-- A bare code fence around a payload. -/
def wrapBareFence (s : List Char) : List Char :=
  "```\n".toList ++ s ++ "\n```".toList

/-- A payload character that serializes without escapes and parses back
unchanged: not a quote, not a backslash, not a control character. -/
def plainChar (c : Char) : Prop :=
  c ≠ '"' ∧ c ≠ '\\' ∧ 32 ≤ c.toNat

instance (c : Char) : Decidable (plainChar c) :=
  inferInstanceAs (Decidable (c ≠ '"' ∧ c ≠ '\\' ∧ 32 ≤ c.toNat))

/-- A payload whose strings consist of plain characters. -/
def plainPayload (x : List String) : Prop :=
  ∀ s ∈ x, ∀ c ∈ s.toList, plainChar c

instance (x : List String) : Decidable (plainPayload x) :=
  inferInstanceAs (Decidable (∀ s ∈ x, ∀ c ∈ s.toList, plainChar c))

end InvestorBot

namespace Router

/-- The rotated candidate order demanded by the specification:
`candidates[k:] + candidates[:k]`. -/
def rotateAt (l : List α) (k : Nat) : List α := l.drop k ++ l.take k

end Router

namespace Scenario

/-- The discovered catalog of the specification's example scenario, with
A = `gemini-2.0-pro` (v2.0, high tier), B = `gemini-1.5-pro` (v1.5) and
C = `gemini-1.0-pro` (v1.0), all generation-capable. -/
def catalogABC : List TwitterBot.RawModel :=
  [⟨"models/gemini-2.0-pro", ["generateContent"]⟩,
   ⟨"models/gemini-1.5-pro", ["generateContent"]⟩,
   ⟨"models/gemini-1.0-pro", ["generateContent"]⟩]

/-- Attempt environment for the example scenario, run against the code:
A fails with a quota error, B would fail transiently twice and then
succeed, and every other model (including the hard-coded fallback) fails
transiently forever. -/
def attScenario (m : String) (i : Nat) : TwitterBot.AttRes :=
  if m = "gemini-2.0-pro" then .err "429 RESOURCE_EXHAUSTED"
  else if m = "gemini-1.5-pro" then
    (if i < 2 then .err "500 internal error" else .ok "B wins")
  else .err "500 internal error"

/-- Attempt environment matching the scenario shifted onto the models the
twitter-bot executor actually tries: A fails with a quota error and the
hard-coded fallback fails transiently twice, then succeeds. -/
def attScenarioFb (m : String) (i : Nat) : TwitterBot.AttRes :=
  if m = "gemini-2.0-pro" then .err "429 RESOURCE_EXHAUSTED"
  else if m = "gemini-1.5-flash" then
    (if i < 2 then .err "500 internal error" else .ok "Great post!")
  else .err "500 internal error"

end Scenario

namespace Router

theorem Dec.toQ_ofInt (n : Int) : (Dec.ofInt n).toQ = n := by
  simp [Dec.ofInt, Dec.toQ]

theorem Dec.toQ_scale (a : Dec) (c : Int) : (a.scale c).toQ = a.toQ * c := by
  simp [Dec.scale, Dec.toQ]
  ring

theorem Dec.toQ_addInt (a : Dec) (n : Int) : (a.addInt n).toQ = a.toQ + n := by
  have h : ((10 : ℚ) ^ a.k) ≠ 0 := by positivity
  simp [Dec.addInt, Dec.toQ]
  field_simp

theorem Dec.blt_iff (a b : Dec) : a.blt b = true ↔ a.toQ < b.toQ := by
  have ha : (0 : ℚ) < 10 ^ a.k := by positivity
  have hb : (0 : ℚ) < 10 ^ b.k := by positivity
  rw [Dec.toQ, Dec.toQ, div_lt_div_iff₀ ha hb]
  simp only [Dec.blt, decide_eq_true_eq]
  constructor
  · intro h
    exact_mod_cast h
  · intro h
    exact_mod_cast h

theorem Dec.beqv_iff (a b : Dec) : a.beqv b = true ↔ a.toQ = b.toQ := by
  have ha : ((10 : ℚ) ^ a.k) ≠ 0 := by positivity
  have hb : ((10 : ℚ) ^ b.k) ≠ 0 := by positivity
  rw [Dec.toQ, Dec.toQ, div_eq_div_iff ha hb]
  simp only [Dec.beqv, beq_iff_eq]
  constructor
  · intro h
    exact_mod_cast h
  · intro h
    exact_mod_cast h

theorem length_insertDescBy (lt : α → α → Bool) (x : α) (l : List α) :
    (insertDescBy lt x l).length = l.length + 1 := by
  induction l with
  | nil => rfl
  | cons y ys ih =>
      by_cases h : lt y x = true
      · simp [insertDescBy, h]
      · simp [insertDescBy, h, ih]

theorem length_sortDescBy (lt : α → α → Bool) (l : List α) :
    (sortDescBy lt l).length = l.length := by
  suffices h : ∀ acc : List α,
      (l.foldl (fun acc x => insertDescBy lt x acc) acc).length
        = acc.length + l.length by
    simpa using h []
  induction l with
  | nil => intro acc; simp
  | cons y ys ih =>
      intro acc
      simp only [List.foldl_cons, List.length_cons]
      rw [ih, length_insertDescBy]
      omega

theorem sortDescBy_eq_nil_iff (lt : α → α → Bool) (l : List α) :
    sortDescBy lt l = [] ↔ l = [] := by
  constructor
  · intro h
    have hl := length_sortDescBy lt l
    rw [h] at hl
    exact List.eq_nil_of_length_eq_zero hl.symm
  · intro h
    subst h
    rfl

end Router

open Router

/-- Claim C7, as stated, is false: the tier bonuses of
`_calculate_model_score` are not smaller than every possible version-step
difference.  `gemini-1.6-flash` extracts version 1.6 and scores 165,
`gemini-1.5-ultra` extracts the strictly lower version 1.5 and scores
170, so the higher-version identifier scores strictly lower. -/
theorem C7_counterexample :
    extract_version_of "gemini-1.6-flash" = some ⟨16, 1⟩
    ∧ extract_version_of "gemini-1.5-ultra" = some ⟨15, 1⟩
    ∧ Dec.blt ⟨15, 1⟩ ⟨16, 1⟩ = true
    ∧ (AiEngine.calculate_model_score "gemini-1.6-flash").blt
        (AiEngine.calculate_model_score "gemini-1.5-ultra") = true := by
  decide

/-- Claim C7 (amended): for two identifiers with the same tag profile
(the same answers to every substring test the scorer performs), a
strictly higher extracted version gives a strictly higher score, in both
the ai-engine scorer and the telegram-bot scorer: the version term
dominates because the remaining bonuses are then identical. -/
theorem C7_amended :
    (∀ (n1 n2 : String) (v1 v2 : Dec),
        extract_version_of n1 = some v1 →
        extract_version_of n2 = some v2 →
        v2.blt v1 = true →
        strContains n1 "pro" = strContains n2 "pro" →
        strContains n1 "flash" = strContains n2 "flash" →
        strContains n1 "ultra" = strContains n2 "ultra" →
        strContains n1 "exp" = strContains n2 "exp" →
        strContains n1 "preview" = strContains n2 "preview" →
        strContains n1 "vision" = strContains n2 "vision" →
        (AiEngine.calculate_model_score n2).blt
          (AiEngine.calculate_model_score n1) = true)
    ∧ (∀ (n1 n2 : String) (v1 v2 : Dec),
        extract_version_of (strLower n1) = some v1 →
        extract_version_of (strLower n2) = some v2 →
        v2.blt v1 = true →
        strContains (strLower n1) "pro" = strContains (strLower n2) "pro" →
        strContains (strLower n1) "flash" = strContains (strLower n2) "flash" →
        strContains (strLower n1) "latest" = strContains (strLower n2) "latest" →
        strContains (strLower n1) "exp" = strContains (strLower n2) "exp" →
        strContains (strLower n1) "preview" = strContains (strLower n2) "preview" →
        strContains (strLower n1) "lite" = strContains (strLower n2) "lite" →
        strContains (strLower n1) "8b" = strContains (strLower n2) "8b" →
        (TelegramBot.model_scorer n2).blt (TelegramBot.model_scorer n1) = true) := by
  constructor
  · intro n1 n2 v1 v2 hv1 hv2 hgt hpro hflash hultra hexp hprev hvis
    rw [Dec.blt_iff] at hgt ⊢
    simp only [AiEngine.calculate_model_score, hv1, hv2, Dec.toQ_addInt,
      Dec.toQ_scale, hpro, hflash, hultra, hexp, hprev, hvis]
    push_cast
    linarith [hgt]
  · intro n1 n2 v1 v2 hv1 hv2 hgt hpro hflash hlatest hexp hprev hlite h8b
    rw [Dec.blt_iff] at hgt ⊢
    simp only [TelegramBot.model_scorer, hv1, hv2, Dec.toQ_addInt,
      Dec.toQ_scale, hpro, hflash, hlatest, hexp, hprev, hlite, h8b]
    push_cast
    linarith [hgt]

/-- Witness for the amended claim C7 at a concrete pair:
`gemini-2.0-flash` has the same tag profile as `gemini-1.5-flash` and a
strictly higher version, and indeed scores strictly higher under both
scorers. -/
theorem C7_amended_witness :
    (AiEngine.calculate_model_score "gemini-1.5-flash").blt
      (AiEngine.calculate_model_score "gemini-2.0-flash") = true
    ∧ (TelegramBot.model_scorer "gemini-1.5-flash").blt
      (TelegramBot.model_scorer "gemini-2.0-flash") = true :=
  ⟨C7_amended.1 "gemini-2.0-flash" "gemini-1.5-flash" ⟨20, 1⟩ ⟨15, 1⟩
      (by decide) (by decide) (by decide) (by decide) (by decide) (by decide)
      (by decide) (by decide) (by decide),
   C7_amended.2 "gemini-2.0-flash" "gemini-1.5-flash" ⟨20, 1⟩ ⟨15, 1⟩
      (by decide) (by decide) (by decide) (by decide) (by decide) (by decide)
      (by decide) (by decide) (by decide) (by decide)⟩

/-- Claim C8: at the failing input `["gemini-1.5-flash",
"gemini-1.5-pro"]` (equal extracted version 1.5, `flash` lexicographically
before `pro`), the twitter-bot discovery sort places `pro` first: the
`reverse=True` applied to the `(version, name)` key orders version ties
by identifier descending, although the adjacent source comment and the
specification call for ascending identifiers on ties. -/
theorem C8_tie_order_descending :
    TwitterBot.extract_version "gemini-1.5-flash"
      = TwitterBot.extract_version "gemini-1.5-pro"
    ∧ strLtB "gemini-1.5-flash" "gemini-1.5-pro" = true
    ∧ sortDescBy TwitterBot.keyLt ["gemini-1.5-flash", "gemini-1.5-pro"]
        = ["gemini-1.5-pro", "gemini-1.5-flash"]
    ∧ TwitterBot.list_models false
        [⟨"gemini-1.5-flash", ["generateContent"]⟩,
         ⟨"gemini-1.5-pro", ["generateContent"]⟩]
        = ["gemini-1.5-pro", "gemini-1.5-flash"] := by
  decide

/-- Claim C5, as stated, is false for the twitter-bot discovery function:
`GeminiService.list_models` returns the empty list both when the upstream
call errors and when it yields no usable candidate, deferring the safe
default to the selection step. -/
theorem C5_counterexample :
    TwitterBot.list_models true [] = []
    ∧ TwitterBot.list_models false [⟨"gpt-4", ["generateContent"]⟩] = [] := by
  decide

/-- Claim C5 (amended): discovery in the ai-engine and the summarizer
never returns an empty list (a fallback list is substituted on upstream
error and on an empty filter result); in the twitter bot, `list_models`
returns the empty list on failure and `select_newest_model` then
substitutes the safe fallback model, so generation always has a
candidate. -/
theorem C5_amended :
    (∀ (apiError : Bool) (raw : List String),
        AiEngine.fetch_and_rank_models apiError raw ≠ [])
    ∧ (∀ (apiError : Bool) (raw : List InvestorBot.SumRawModel),
        InvestorBot.discover_models apiError raw ≠ [])
    ∧ (∀ (upstreamError : Bool) (raw : List TwitterBot.RawModel),
        TwitterBot.list_models upstreamError raw = [] →
        TwitterBot.select_newest_model upstreamError raw
          = TwitterBot.FALLBACK_MODEL) := by
  refine ⟨?_, ?_, ?_⟩
  · intro apiError raw
    simp only [AiEngine.fetch_and_rank_models]
    split_ifs with h1 h2
    · simp
    · simp
    · rw [Ne, sortDescBy_eq_nil_iff]
      exact h2
  · intro apiError raw
    simp only [InvestorBot.discover_models]
    split_ifs with h1 h2
    · simp [InvestorBot.FALLBACK_MODELS]
    · simp [InvestorBot.FALLBACK_MODELS]
    · exact h2
  · intro upstreamError raw h
    unfold TwitterBot.select_newest_model
    rw [h]

/-- Witness for the amended claim C5 at concrete inputs: an erroring
upstream still yields non-empty lists in the ai-engine and the
summarizer, and the twitter-bot selection falls back to the safe default
when its discovery returned nothing. -/
theorem C5_amended_witness :
    AiEngine.fetch_and_rank_models true [] ≠ []
    ∧ InvestorBot.discover_models true [] ≠ []
    ∧ TwitterBot.select_newest_model true [] = TwitterBot.FALLBACK_MODEL :=
  ⟨C5_amended.1 true [], C5_amended.2.1 true [], C5_amended.2.2 true [] (by decide)⟩

/-- Claim C6, as stated, is false: with a three-candidate snapshot on
which every generation call fails, the ai-engine executor attempts the
candidates in plain catalog order `["m1", "m2", "m3"]`, which differs
from the rotated order the claim requires for sticky index 1 — the code
maintains no sticky index at all. -/
theorem C6_counterexample :
    (AiEngine.analyze_and_draft (fun _ => .error "quota")
      ["m1", "m2", "m3"]).2 = ["m1", "m2", "m3"]
    ∧ rotateAt ["m1", "m2", "m3"] 1 = ["m2", "m3", "m1"]
    ∧ (AiEngine.analyze_and_draft (fun _ => .error "quota")
        ["m1", "m2", "m3"]).2 ≠ rotateAt ["m1", "m2", "m3"] 1 := by
  decide

/-- Claim C6 (amended): the ai-engine executor keeps no sticky index and
always walks the snapshot in plain catalog order — the rotation is fixed
at index 0 (`rotateAt l 0 = l`) and the attempt trace is a prefix of the
candidate list; being a pure function of its arguments, the executor
carries no sticky state between invocations. -/
theorem C6_amended (att : String → Except String String) (ms : List String) :
    (AiEngine.analyze_and_draft att ms).2 <+: ms
    ∧ rotateAt ms 0 = ms := by
  refine ⟨?_, by simp [rotateAt]⟩
  induction ms with
  | nil => simp [AiEngine.analyze_and_draft]
  | cons m rest ih =>
      simp only [AiEngine.analyze_and_draft]
      cases att m with
      | ok out => simp
      | error e =>
          obtain ⟨t, ht⟩ := ih
          exact ⟨t, by simp [ht]⟩

/-- Claim C2, as stated, is false: running the specification's scenario
against the twitter-bot executor (catalog A, B, C discovered and ranked;
A fails with quota; B would fail transiently twice and then succeed), the
executor never attempts B or C at all — after A it tries only the
hard-coded fallback `gemini-1.5-flash`, which here fails transiently
three times, so the whole request fails.  B receives 0 attempts, not 3,
and the catalog is not walked in rank order. -/
theorem C2_counterexample :
    TwitterBot.generate_with_retry true false Scenario.catalogABC
        Scenario.attScenario
      = (TwitterBot.allFailedOutcome,
         ["gemini-2.0-pro", "gemini-1.5-flash", "gemini-1.5-flash",
          "gemini-1.5-flash"],
         [("gemini-1.5-flash", 1), ("gemini-1.5-flash", 2),
          ("gemini-1.5-flash", 3)])
    ∧ (TwitterBot.generate_with_retry true false Scenario.catalogABC
        Scenario.attScenario).2.1.count "gemini-1.5-pro" = 0
    ∧ (TwitterBot.generate_with_retry true false Scenario.catalogABC
        Scenario.attScenario).2.1.count "gemini-1.0-pro" = 0 := by
  decide

/-- Claim C2 (amended): the twitter-bot executor tries only the
top-ranked candidate followed by the hard-coded fallback, with no sticky
index.  In the scenario shifted onto those models — A fails with quota,
the fallback fails transiently twice and then succeeds — the outcome is a
success attributed to the fallback, with A attempted exactly once, the
fallback exactly three times (sleeping 1 then 2 seconds between its
attempts), and the remaining catalog candidates zero times. -/
theorem C2_amended_scenario :
    TwitterBot.generate_with_retry true false Scenario.catalogABC
        Scenario.attScenarioFb
      = (("Great post!", "gemini-1.5-flash"),
         ["gemini-2.0-pro", "gemini-1.5-flash", "gemini-1.5-flash",
          "gemini-1.5-flash"],
         [("gemini-1.5-flash", 1), ("gemini-1.5-flash", 2)])
    ∧ (TwitterBot.generate_with_retry true false Scenario.catalogABC
        Scenario.attScenarioFb).2.1.count "gemini-2.0-pro" = 1
    ∧ (TwitterBot.generate_with_retry true false Scenario.catalogABC
        Scenario.attScenarioFb).2.1.count "gemini-1.5-flash" = 3
    ∧ (TwitterBot.generate_with_retry true false Scenario.catalogABC
        Scenario.attScenarioFb).2.1.count "gemini-1.5-pro" = 0
    ∧ (TwitterBot.generate_with_retry true false Scenario.catalogABC
        Scenario.attScenarioFb).2.1.count "gemini-1.0-pro" = 0 := by
  decide

namespace TwitterBot

/-- If every attempt on a model raises, the inner retry loop never
succeeds. -/
theorem innerLoop_err_none (att : Nat → AttRes)
    (h : ∀ i, ∃ msg, att i = .err msg) :
    ∀ fuel i, (innerLoop att fuel i).success = none := by
  intro fuel
  induction fuel with
  | zero => intro i; rfl
  | succ fuel ih =>
      intro i
      obtain ⟨msg, hm⟩ := h i
      by_cases hs : isSwitchErr msg = true
      · simp [innerLoop, hm, hs]
      · simp only [Bool.not_eq_true] at hs
        simp [innerLoop, hm, hs, ih (i + 1)]

/-- If every attempt on every model raises, the executor walk finds no
success. -/
theorem runModels_all_err (att : String → Nat → AttRes)
    (h : ∀ m i, ∃ msg, att m i = .err msg) (retries : Nat) :
    ∀ models, (runModels att retries models).1 = none := by
  intro models
  induction models with
  | nil => rfl
  | cons m rest ih =>
      have hn := innerLoop_err_none (att m) (h m) retries 0
      simp only [runModels, hn]
      rcases hr : runModels att retries rest with ⟨o, tr, sl⟩
      rw [hr] at ih
      simpa using ih

/-- On a model whose attempts all fail with transient (non-switch)
errors, the inner loop performs exactly `fuel` attempts with the
increasing backoff delays `i+1, i+2, ...` and no success. -/
theorem innerLoop_transient (att : Nat → AttRes)
    (h : ∀ i, ∃ msg, att i = .err msg ∧ isSwitchErr msg = false) :
    ∀ fuel i, innerLoop att fuel i = ⟨none, fuel, List.range' (i + 1) fuel⟩ := by
  intro fuel
  induction fuel with
  | zero => intro i; rfl
  | succ fuel ih =>
      intro i
      obtain ⟨msg, hm, hs⟩ := h i
      have hc : 1 + i = i + 1 := Nat.add_comm 1 i
      simp only [innerLoop, hm, hs, ih (i + 1), List.range'_succ,
        Bool.false_eq_true, if_false, hc]

/-- The inner loop never issues more attempts than its retry budget. -/
theorem innerLoop_count_le (att : Nat → AttRes) :
    ∀ (fuel i : Nat), (innerLoop att fuel i).count ≤ fuel := by
  intro fuel
  induction fuel with
  | zero => intro i; exact Nat.le_refl 0
  | succ fuel ih =>
      intro i
      cases hatt : att i with
      | ok t =>
          by_cases ht : t = ""
          · simp only [innerLoop, hatt, ht, if_pos rfl]
            exact Nat.succ_le_succ (ih (i + 1))
          · simp [innerLoop, hatt, ht]
      | err msg =>
          by_cases hs : isSwitchErr msg = true
          · simp [innerLoop, hatt, hs]
          · simp only [Bool.not_eq_true] at hs
            simp only [innerLoop, hatt, hs, Bool.false_eq_true, if_neg,
              Bool.not_eq_true]
            exact Nat.succ_le_succ (ih (i + 1))

end TwitterBot

namespace TelegramBot

/-- The telegram executor's attempt trace is a prefix of the model chain:
models are visited once each, in order, up to the first success. -/
theorem generate_trace_prefix (att : String → TeleRes) :
    ∀ ms : List String, (generate_with_retry att ms).2 <+: ms := by
  intro ms
  induction ms with
  | nil => simp [generate_with_retry]
  | cons m rest ih =>
      obtain ⟨t, ht⟩ := ih
      cases hatt : att m with
      | ok s =>
          by_cases hs : s = ""
          · exact ⟨t, by simp [generate_with_retry, hatt, hs, ht]⟩
          · exact ⟨rest, by simp [generate_with_retry, hatt, hs]⟩
      | resourceExhausted => exact ⟨t, by simp [generate_with_retry, hatt, ht]⟩
      | internalServerError => exact ⟨t, by simp [generate_with_retry, hatt, ht]⟩
      | serviceUnavailable => exact ⟨t, by simp [generate_with_retry, hatt, ht]⟩
      | invalidArgument => exact ⟨t, by simp [generate_with_retry, hatt, ht]⟩
      | otherError => exact ⟨t, by simp [generate_with_retry, hatt, ht]⟩

end TelegramBot

/-- Claim C1: under total failure of the backends — every attempt raises
(quota, transient or otherwise) in the twitter bot, every model errors or
returns an empty text in the telegram bot, every model raises in the
ai-engine — each public generation entry point still returns its typed
all-failed outcome value; the embeddings are total functions because
every generation call of the source sits inside a broad exception
handler. -/
theorem C1_no_throw :
    (∀ (upstreamError : Bool) (raw : List TwitterBot.RawModel)
        (att : String → Nat → TwitterBot.AttRes),
        (∀ m i, ∃ msg, att m i = .err msg) →
        (TwitterBot.generate_with_retry true upstreamError raw att).1
          = TwitterBot.allFailedOutcome)
    ∧ (∀ (att : String → TelegramBot.TeleRes) (ms : List String),
        (∀ m t, att m = .ok t → t = "") →
        (TelegramBot.generate_with_retry att ms).1 = TelegramBot.teleAllFailed)
    ∧ (∀ (att : String → Except String String) (ms : List String),
        (∀ m, ∃ e, att m = .error e) →
        (AiEngine.analyze_and_draft att ms).1 = AiEngine.systemFailure) := by
  refine ⟨?_, ?_, ?_⟩
  · intro upstreamError raw att h
    simp only [TwitterBot.generate_with_retry, Bool.not_true,
      Bool.false_eq_true, if_false]
    have ho := TwitterBot.runModels_all_err att h 3
      (if TwitterBot.select_newest_model upstreamError raw
            = TwitterBot.FALLBACK_MODEL
       then [TwitterBot.select_newest_model upstreamError raw]
       else [TwitterBot.select_newest_model upstreamError raw,
             TwitterBot.FALLBACK_MODEL])
    rcases hr : TwitterBot.runModels att 3
      (if TwitterBot.select_newest_model upstreamError raw
            = TwitterBot.FALLBACK_MODEL
       then [TwitterBot.select_newest_model upstreamError raw]
       else [TwitterBot.select_newest_model upstreamError raw,
             TwitterBot.FALLBACK_MODEL]) with ⟨o, tr, sl⟩
    rw [hr] at ho
    simp only at ho
    subst ho
    simp [hr]
  · intro att ms h
    induction ms with
    | nil => rfl
    | cons m rest ih =>
        cases hatt : att m with
        | ok t =>
            have ht := h m t hatt
            simp [TelegramBot.generate_with_retry, hatt, ht, ih]
        | resourceExhausted => simp [TelegramBot.generate_with_retry, hatt, ih]
        | internalServerError => simp [TelegramBot.generate_with_retry, hatt, ih]
        | serviceUnavailable => simp [TelegramBot.generate_with_retry, hatt, ih]
        | invalidArgument => simp [TelegramBot.generate_with_retry, hatt, ih]
        | otherError => simp [TelegramBot.generate_with_retry, hatt, ih]
  · intro att ms h
    induction ms with
    | nil => rfl
    | cons m rest ih =>
        obtain ⟨e, he⟩ := h m
        simp [AiEngine.analyze_and_draft, he, ih]

/-- Witness for claim C1 at concrete total-failure environments: quota
errors everywhere (twitter), quota errors everywhere (telegram), and
raised exceptions everywhere (ai-engine) all produce the typed all-failed
outcomes. -/
theorem C1_no_throw_witness :
    (TwitterBot.generate_with_retry true false []
        (fun _ _ => .err "429 RESOURCE_EXHAUSTED")).1
      = TwitterBot.allFailedOutcome
    ∧ (TelegramBot.generate_with_retry (fun _ => .resourceExhausted)
        ["models/gemini-1.5-pro", "models/gemini-1.5-flash"]).1
      = TelegramBot.teleAllFailed
    ∧ (AiEngine.analyze_and_draft (fun _ => .error "429 quota")
        ["gemini-1.5-pro"]).1 = AiEngine.systemFailure :=
  ⟨C1_no_throw.1 false [] _ (fun _ _ => ⟨"429 RESOURCE_EXHAUSTED", rfl⟩),
   C1_no_throw.2.1 _ _ (fun _ t h => by cases h),
   C1_no_throw.2.2 _ _ (fun _ => ⟨"429 quota", rfl⟩)⟩

/-- Claim C3: in the twitter-bot executor a candidate failing with
transient (non-switch) errors is retried on the spot: with the default
budget of 3 it receives exactly 3 attempts with the strictly increasing
backoff delays 1, 2, 3 seconds, and only then does the walk move on to
the next candidate (the following trace is exactly the next candidates');
in general a candidate is attempted at most the retry budget, and in the
telegram-bot executor a candidate is attempted at most once per chain
entry. -/
theorem C3_bounded_transient_retry :
    (∀ (att : Nat → TwitterBot.AttRes),
        (∀ i, ∃ msg, att i = .err msg ∧ TwitterBot.isSwitchErr msg = false) →
        TwitterBot.innerLoop att 3 0 = ⟨none, 3, [1, 2, 3]⟩
          ∧ List.Chain' (· < ·) (TwitterBot.innerLoop att 3 0).sleeps)
    ∧ (∀ (att : String → Nat → TwitterBot.AttRes) (retries : Nat)
        (m : String) (rest : List String),
        (∀ i, ∃ msg, att m i = .err msg ∧ TwitterBot.isSwitchErr msg = false) →
        (TwitterBot.runModels att retries (m :: rest)).2.1
          = List.replicate retries m
            ++ (TwitterBot.runModels att retries rest).2.1)
    ∧ (∀ (att : Nat → TwitterBot.AttRes) (retries i : Nat),
        (TwitterBot.innerLoop att retries i).count ≤ retries)
    ∧ (∀ (att : String → TelegramBot.TeleRes) (ms : List String) (m : String),
        ((TelegramBot.generate_with_retry att ms).2).count m ≤ ms.count m) := by
  refine ⟨?_, ?_, ?_, ?_⟩
  · intro att h
    have he := TwitterBot.innerLoop_transient att h 3 0
    refine ⟨?_, ?_⟩
    · simpa using he
    · rw [he]
      exact List.chain'_cons.mpr ⟨by norm_num,
        List.chain'_cons.mpr ⟨by norm_num, List.chain'_singleton 3⟩⟩
  · intro att retries m rest h
    have he := TwitterBot.innerLoop_transient (att m) h retries 0
    rcases hr : TwitterBot.runModels att retries rest with ⟨o, tr, sl⟩
    simp [TwitterBot.runModels, he, hr]
  · intro att retries i
    exact TwitterBot.innerLoop_count_le att retries i
  · intro att ms m
    exact ((TelegramBot.generate_trace_prefix att ms).sublist).count_le m

/-- Witness for claim C3: a model answering `503 Service Unavailable`
forever is attempted exactly 3 times with delays 1, 2, 3 and no success,
and in the telegram bot a two-model chain failing everywhere produces at
most one attempt per model. -/
theorem C3_witness :
    TwitterBot.innerLoop (fun _ => .err "503 Service Unavailable") 3 0
      = ⟨none, 3, [1, 2, 3]⟩
    ∧ ((TelegramBot.generate_with_retry (fun _ => .internalServerError)
        ["a", "b"]).2).count "a" ≤ (["a", "b"] : List String).count "a" :=
  ⟨(C3_bounded_transient_retry.1 _
      (fun _ => ⟨"503 Service Unavailable", rfl, by decide⟩)).1,
   C3_bounded_transient_retry.2.2.2 _ ["a", "b"] "a"⟩

/-- Claim C4: a candidate failing with a quota / rate-limit or
not-found / invalid-configuration error is abandoned immediately within
the routing attempt: in the twitter bot a switch-classified first error
means exactly one attempt, no sleep, and the walk continues with the next
candidate unchanged; in the telegram bot a `ResourceExhausted` or
`InvalidArgument` on a model adds exactly one trace entry and passes
control to the rest of the chain. -/
theorem C4_quota_immediate_switch :
    (∀ (att : Nat → TwitterBot.AttRes) (retries : Nat) (msg : String),
        att 0 = .err msg → TwitterBot.isSwitchErr msg = true →
        TwitterBot.innerLoop att (retries + 1) 0 = ⟨none, 1, []⟩)
    ∧ (∀ (att : String → Nat → TwitterBot.AttRes) (retries : Nat)
        (m : String) (rest : List String) (msg : String),
        att m 0 = .err msg → TwitterBot.isSwitchErr msg = true →
        TwitterBot.runModels att (retries + 1) (m :: rest)
          = ((TwitterBot.runModels att (retries + 1) rest).1,
             m :: (TwitterBot.runModels att (retries + 1) rest).2.1,
             (TwitterBot.runModels att (retries + 1) rest).2.2))
    ∧ (∀ (att : String → TelegramBot.TeleRes) (m : String)
        (rest : List String),
        att m = .resourceExhausted ∨ att m = .invalidArgument →
        TelegramBot.generate_with_retry att (m :: rest)
          = ((TelegramBot.generate_with_retry att rest).1,
             m :: (TelegramBot.generate_with_retry att rest).2)) := by
  refine ⟨?_, ?_, ?_⟩
  · intro att retries msg h0 hs
    simp [TwitterBot.innerLoop, h0, hs]
  · intro att retries m rest msg h0 hs
    have h1 : TwitterBot.innerLoop (att m) (retries + 1) 0 = ⟨none, 1, []⟩ := by
      simp [TwitterBot.innerLoop, h0, hs]
    rcases hr : TwitterBot.runModels att (retries + 1) rest with ⟨o, tr, sl⟩
    simp [TwitterBot.runModels, h1, hr]
  · intro att m rest h
    rcases h with h | h
    · simp [TelegramBot.generate_with_retry, h]
    · simp [TelegramBot.generate_with_retry, h]

/-- Witness for claim C4: a `429 RESOURCE_EXHAUSTED` answer gives one
attempt, an empty sleep trace, and an immediate switch in the twitter
bot, and a `ResourceExhausted` model is passed over with a single trace
entry in the telegram bot. -/
theorem C4_witness :
    TwitterBot.innerLoop (fun _ => .err "429 RESOURCE_EXHAUSTED") 3 0
      = ⟨none, 1, []⟩
    ∧ TelegramBot.generate_with_retry (fun _ => .resourceExhausted) ["a", "b"]
      = ((TelegramBot.generate_with_retry (fun _ => .resourceExhausted)
          ["b"]).1,
         "a" :: (TelegramBot.generate_with_retry (fun _ => .resourceExhausted)
          ["b"]).2) :=
  ⟨C4_quota_immediate_switch.1 _ 2 "429 RESOURCE_EXHAUSTED" rfl (by decide),
   C4_quota_immediate_switch.2.2 _ "a" ["b"] (Or.inl rfl)⟩

namespace InvestorBot

theorem skipWs_cons_not (c : Char) (l : List Char) (h : jsonWs c = false) :
    skipWs (c :: l) = c :: l := by
  simp [skipWs, List.dropWhile_cons, h]

theorem isPrefixOf_append_self (p r : List Char) :
    p.isPrefixOf (p ++ r) = true := by
  induction p with
  | nil => simp [List.isPrefixOf]
  | cons c t ih => simp [List.isPrefixOf, ih]

theorem isSuffixOf_append_self (p q : List Char) :
    p.isSuffixOf (q ++ p) = true := by
  simp only [List.isSuffixOf, List.reverse_append]
  exact isPrefixOf_append_self p.reverse q.reverse

theorem elemsChars_one (s : String) :
    elemsChars [s] = '"' :: s.toList ++ '"' :: [']'] := rfl

theorem elemsChars_cons2 (s s2 : String) (r2 : List String) :
    elemsChars (s :: s2 :: r2)
      = '"' :: s.toList ++ '"' :: ',' :: ' ' :: elemsChars (s2 :: r2) := rfl

theorem pStrAux_plain (l rest : List Char) (h : ∀ c ∈ l, plainChar c) :
    ∀ fuel, l.length + 1 ≤ fuel →
      pStrAux fuel (l ++ '"' :: rest) = some (l, rest) := by
  induction l with
  | nil =>
      intro fuel hf
      obtain ⟨f, rfl⟩ : ∃ f, fuel = f + 1 := ⟨fuel - 1, by omega⟩
      rw [List.nil_append, pStrAux.eq_def]
      simp
  | cons c t ih =>
      intro fuel hf
      have hcons : (c :: t).length = t.length + 1 := by simp
      obtain ⟨f, rfl⟩ : ∃ f, fuel = f + 1 := ⟨fuel - 1, by omega⟩
      obtain ⟨h1, h2, h3⟩ := h c (List.mem_cons_self c t)
      have hlt : ¬(c.toNat < 32) := by omega
      have ht := ih (fun d hd => h d (List.mem_cons_of_mem c hd)) f (by omega)
      rw [List.cons_append, pStrAux.eq_def]
      simp [h1, h2, hlt, ht]

theorem string_mk_toList (s : String) : String.mk s.toList = s := rfl

theorem skipWs_elemsChars (x : List String) :
    skipWs (elemsChars x) = elemsChars x := by
  cases x with
  | nil => exact skipWs_cons_not ']' [] (by decide)
  | cons s rest =>
      cases rest with
      | nil =>
          rw [elemsChars_one]
          exact skipWs_cons_not '"' _ (by decide)
      | cons s2 r2 =>
          rw [elemsChars_cons2]
          exact skipWs_cons_not '"' _ (by decide)

theorem le_length_elemsChars (x : List String) :
    x.length ≤ (elemsChars x).length := by
  induction x with
  | nil => simp [elemsChars]
  | cons s rest ih =>
      cases rest with
      | nil => simp [elemsChars_one]
      | cons s2 r2 =>
          rw [elemsChars_cons2]
          simp only [List.length_cons, List.length_append] at ih ⊢
          omega

theorem elemsChars_cons_shape (s : String) (rest : List String) :
    ∃ t, elemsChars (s :: rest) = '"' :: t := by
  cases rest with
  | nil => exact ⟨s.toList ++ '"' :: [']'], elemsChars_one s⟩
  | cons s2 r2 =>
      exact ⟨s.toList ++ '"' :: ',' :: ' ' :: elemsChars (s2 :: r2),
        elemsChars_cons2 s s2 r2⟩

theorem pSeq_serialize (rest : List String) :
    ∀ s : String, (∀ d ∈ s :: rest, ∀ c ∈ d.toList, plainChar c) →
    ∀ fuel, (s :: rest).length + 1 ≤ fuel →
      pSeq fuel (elemsChars (s :: rest))
        = some ((s :: rest).map PyJson.jstr, []) := by
  induction rest with
  | nil =>
      intro s hx fuel hf
      obtain ⟨f, rfl⟩ : ∃ f, fuel = f + 1 := ⟨fuel - 1, by omega⟩
      obtain ⟨f2, rfl⟩ : ∃ f2, f = f2 + 1 := ⟨f - 1, by simp at hf; omega⟩
      have hps := pStrAux_plain s.toList [']']
        (hx s (List.mem_cons_self s [])) (s.toList.length + 3) (by omega)
      have hpj : pJson (f2 + 1) ('"' :: (s.toList ++ '"' :: [']']))
          = some (.jstr s, [']']) := by
        rw [pJson.eq_def]
        simp [skipWs_cons_not '"' _ (by decide), hps, string_mk_toList]
        exact ⟨s.data, hps, rfl⟩
      simp only [String.toList] at hpj
      rw [elemsChars_one, pSeq.eq_def]
      simp [hpj, skipWs_cons_not ']' [] (by decide)]
  | cons s2 r2 ih =>
      intro s hx fuel hf
      have hlen2 : (s :: s2 :: r2).length = r2.length + 2 := by simp
      rw [hlen2] at hf
      obtain ⟨f, rfl⟩ : ∃ f, fuel = f + 1 := ⟨fuel - 1, by omega⟩
      obtain ⟨f2, rfl⟩ : ∃ f2, f = f2 + 1 := ⟨f - 1, by omega⟩
      have hps := pStrAux_plain s.toList
        (',' :: ' ' :: elemsChars (s2 :: r2))
        (hx s (List.mem_cons_self s (s2 :: r2)))
        (s.toList.length + (elemsChars (s2 :: r2)).length + 4) (by omega)
      have hpj : pJson (f2 + 1)
          ('"' :: (s.toList ++ '"' :: ',' :: ' ' :: elemsChars (s2 :: r2)))
          = some (.jstr s, ',' :: ' ' :: elemsChars (s2 :: r2)) := by
        rw [pJson.eq_def]
        simp [skipWs_cons_not '"' _ (by decide), hps, string_mk_toList]
        exact ⟨s.data, hps, rfl⟩
      have hrec := ih s2 (fun d hd c hc => hx d (List.mem_cons_of_mem s hd) c hc)
        (f2 + 1) (by simp; omega)
      have hsw : skipWs (' ' :: elemsChars (s2 :: r2))
          = elemsChars (s2 :: r2) := by
        rw [skipWs, List.dropWhile_cons]
        simp only [show jsonWs ' ' = true from rfl, if_true]
        exact skipWs_elemsChars (s2 :: r2)
      simp only [String.toList] at hpj
      rw [elemsChars_cons2, pSeq.eq_def]
      simp [hpj, skipWs_cons_not ',' _ (by decide), hsw, hrec]

theorem pElems_serialize (x : List String)
    (hx : ∀ s ∈ x, ∀ c ∈ s.toList, plainChar c) :
    ∀ fuel, x.length + 2 ≤ fuel →
      pElems fuel (elemsChars x) = some (x.map PyJson.jstr, []) := by
  intro fuel hf
  obtain ⟨f, rfl⟩ : ∃ f, fuel = f + 1 := ⟨fuel - 1, by omega⟩
  cases x with
  | nil =>
      rw [pElems.eq_def]
      simp [elemsChars]
  | cons s rest =>
      obtain ⟨t, ht⟩ := elemsChars_cons_shape s rest
      rw [ht, pElems.eq_def]
      simp only [show ('"' = ']') = False by simp, if_false]
      rw [← ht]
      exact pSeq_serialize rest s hx f (by simp at hf ⊢; omega)

theorem jsonLoads_serialize (x : List String)
    (hx : ∀ s ∈ x, ∀ c ∈ s.toList, plainChar c) :
    jsonLoads (serializeStrList x) = some (.jarr (x.map PyJson.jstr)) := by
  have hlen : (serializeStrList x).length = (elemsChars x).length + 1 := by
    simp [serializeStrList]
  have hpe := pElems_serialize x hx ((elemsChars x).length + 2)
    (by have := le_length_elemsChars x; omega)
  have hpj : pJson ((serializeStrList x).length + 2) (serializeStrList x)
      = some (.jarr (x.map PyJson.jstr), []) := by
    rw [hlen, serializeStrList, pJson.eq_def]
    simp [skipWs_cons_not '[' _ (by decide), skipWs_elemsChars x, hpe]
  rw [jsonLoads, hpj]
  simp [skipWs]

theorem pyStrip_sandwich (a b : Char) (m : List Char)
    (ha : pySpace a = false) (hb : pySpace b = false) :
    pyStrip (a :: (m ++ [b])) = a :: (m ++ [b]) := by
  have hrev : (a :: (m ++ [b])).reverse = b :: (m.reverse ++ [a]) := by
    simp
  have h1 : List.dropWhile pySpace (a :: (m ++ [b])) = a :: (m ++ [b]) := by
    simp [List.dropWhile_cons, ha]
  have h2 : List.dropWhile pySpace (b :: (m.reverse ++ [a]))
      = b :: (m.reverse ++ [a]) := by
    simp [List.dropWhile_cons, hb]
  rw [pyStrip, h1, hrev, h2, ← hrev, List.reverse_reverse]

theorem pyStrip_nl_sandwich (a b : Char) (m : List Char)
    (ha : pySpace a = false) (hb : pySpace b = false) :
    pyStrip ('\n' :: ((a :: (m ++ [b])) ++ ['\n'])) = a :: (m ++ [b]) := by
  have h1 : List.dropWhile pySpace ('\n' :: ((a :: (m ++ [b])) ++ ['\n']))
      = a :: ((m ++ [b]) ++ ['\n']) := by
    rw [List.dropWhile_cons]
    simp only [show pySpace '\n' = true from rfl, if_true, List.cons_append]
    simp [List.dropWhile_cons, ha]
  have hrev : (a :: ((m ++ [b]) ++ ['\n'])).reverse
      = '\n' :: (b :: (m.reverse ++ [a])) := by
    simp
  have h2 : List.dropWhile pySpace ('\n' :: (b :: (m.reverse ++ [a])))
      = b :: (m.reverse ++ [a]) := by
    rw [List.dropWhile_cons]
    simp only [show pySpace '\n' = true from rfl, if_true]
    simp [List.dropWhile_cons, hb]
  have hrev2 : (b :: (m.reverse ++ [a])).reverse = a :: (m ++ [b]) := by
    simp
  rw [pyStrip, h1, hrev, h2, hrev2]

theorem stripFences_wrapJson (a b : Char) (m : List Char)
    (ha : pySpace a = false) (hb : pySpace b = false) :
    stripFences (wrapJsonFence (a :: (m ++ [b]))) = a :: (m ++ [b]) := by
  have e3 : wrapJsonFence (a :: (m ++ [b]))
      = "```json".toList ++ ('\n' :: ((a :: (m ++ [b])) ++ "\n```".toList)) := by
    rw [wrapJsonFence,
      show "```json\n".toList = "```json".toList ++ ['\n'] from by decide]
    simp
  have h0 : pyStrip (wrapJsonFence (a :: (m ++ [b])))
      = wrapJsonFence (a :: (m ++ [b])) := by
    have hw : wrapJsonFence (a :: (m ++ [b]))
        = btick :: (("``json\n".toList ++ (a :: (m ++ [b])) ++ "\n``".toList)
            ++ [btick]) := by
      rw [wrapJsonFence,
        show "```json\n".toList = btick :: "``json\n".toList from by decide,
        show "\n```".toList = "\n``".toList ++ [btick] from by decide]
      simp
    rw [hw, pyStrip_sandwich btick btick _ (by decide) (by decide)]
  have h1 : "```json".toList.isPrefixOf (wrapJsonFence (a :: (m ++ [b])))
      = true := by
    rw [e3]
    exact isPrefixOf_append_self _ _
  have h2 : (wrapJsonFence (a :: (m ++ [b]))).drop 7
      = '\n' :: ((a :: (m ++ [b])) ++ "\n```".toList) := by
    rw [e3]
    exact List.drop_left' (by decide)
  have h3 : "```".toList.isPrefixOf
      ('\n' :: ((a :: (m ++ [b])) ++ "\n```".toList)) = false := by
    rw [show "```".toList = btick :: "``".toList from by decide]
    simp [List.isPrefixOf, show (btick == '\n') = false from by decide]
  have e4 : '\n' :: ((a :: (m ++ [b])) ++ "\n```".toList)
      = ('\n' :: ((a :: (m ++ [b])) ++ ['\n'])) ++ "```".toList := by
    rw [show "\n```".toList = '\n' :: "```".toList from by decide]
    simp
  have h4 : "```".toList.isSuffixOf
      ('\n' :: ((a :: (m ++ [b])) ++ "\n```".toList)) = true := by
    rw [e4]
    exact isSuffixOf_append_self _ _
  have h5 : ('\n' :: ((a :: (m ++ [b])) ++ "\n```".toList)).take
      (('\n' :: ((a :: (m ++ [b])) ++ "\n```".toList)).length - 3)
      = '\n' :: ((a :: (m ++ [b])) ++ ['\n']) := by
    rw [e4, List.length_append,
      show ("```".toList).length = 3 from by decide, Nat.add_sub_cancel]
    exact List.take_left _ _
  have h6 : pyStrip ('\n' :: ((a :: (m ++ [b])) ++ ['\n'])) = a :: (m ++ [b]) :=
    pyStrip_nl_sandwich a b m ha hb
  rw [stripFences]
  rw [h0, h1]
  simp only [if_true]
  rw [h2, h3]
  simp only [Bool.false_eq_true, if_false]
  rw [h4]
  simp only [if_true]
  rw [h5, h6]

theorem stripFences_wrapBare (a b : Char) (m : List Char)
    (ha : pySpace a = false) (hb : pySpace b = false) :
    stripFences (wrapBareFence (a :: (m ++ [b]))) = a :: (m ++ [b]) := by
  have e3 : wrapBareFence (a :: (m ++ [b]))
      = "```".toList ++ ('\n' :: ((a :: (m ++ [b])) ++ "\n```".toList)) := by
    rw [wrapBareFence,
      show "```\n".toList = "```".toList ++ ['\n'] from by decide]
    simp
  have h0 : pyStrip (wrapBareFence (a :: (m ++ [b])))
      = wrapBareFence (a :: (m ++ [b])) := by
    have hw : wrapBareFence (a :: (m ++ [b]))
        = btick :: (("``\n".toList ++ (a :: (m ++ [b])) ++ "\n``".toList)
            ++ [btick]) := by
      rw [wrapBareFence,
        show "```\n".toList = btick :: "``\n".toList from by decide,
        show "\n```".toList = "\n``".toList ++ [btick] from by decide]
      simp
    rw [hw, pyStrip_sandwich btick btick _ (by decide) (by decide)]
  have h1 : "```json".toList.isPrefixOf (wrapBareFence (a :: (m ++ [b])))
      = false := by
    rw [wrapBareFence,
      show "```\n".toList = btick :: btick :: btick :: ['\n'] from by decide,
      show "```json".toList
        = btick :: btick :: btick :: 'j' :: "son".toList from by decide]
    simp [List.isPrefixOf, show (('j' : Char) == '\n') = false from by decide]
  have h1b : "```".toList.isPrefixOf (wrapBareFence (a :: (m ++ [b])))
      = true := by
    rw [e3]
    exact isPrefixOf_append_self _ _
  have h2 : (wrapBareFence (a :: (m ++ [b]))).drop 3
      = '\n' :: ((a :: (m ++ [b])) ++ "\n```".toList) := by
    rw [e3]
    exact List.drop_left' (by decide)
  have e4 : '\n' :: ((a :: (m ++ [b])) ++ "\n```".toList)
      = ('\n' :: ((a :: (m ++ [b])) ++ ['\n'])) ++ "```".toList := by
    rw [show "\n```".toList = '\n' :: "```".toList from by decide]
    simp
  have h4 : "```".toList.isSuffixOf
      ('\n' :: ((a :: (m ++ [b])) ++ "\n```".toList)) = true := by
    rw [e4]
    exact isSuffixOf_append_self _ _
  have h5 : ('\n' :: ((a :: (m ++ [b])) ++ "\n```".toList)).take
      (('\n' :: ((a :: (m ++ [b])) ++ "\n```".toList)).length - 3)
      = '\n' :: ((a :: (m ++ [b])) ++ ['\n']) := by
    rw [e4, List.length_append,
      show ("```".toList).length = 3 from by decide, Nat.add_sub_cancel]
    exact List.take_left _ _
  have h6 : pyStrip ('\n' :: ((a :: (m ++ [b])) ++ ['\n'])) = a :: (m ++ [b]) :=
    pyStrip_nl_sandwich a b m ha hb
  rw [stripFences]
  rw [h0, h1]
  simp only [Bool.false_eq_true, if_false]
  rw [h1b]
  simp only [if_true]
  rw [h2, h4]
  simp only [if_true]
  rw [h5, h6]

theorem stripFences_plain (a b : Char) (m : List Char)
    (ha : pySpace a = false) (hb : pySpace b = false)
    (hba : (btick == a) = false) (hbb : (btick == b) = false) :
    stripFences (a :: (m ++ [b])) = a :: (m ++ [b]) := by
  have h0 : pyStrip (a :: (m ++ [b])) = a :: (m ++ [b]) :=
    pyStrip_sandwich a b m ha hb
  have h1 : "```json".toList.isPrefixOf (a :: (m ++ [b])) = false := by
    rw [show "```json".toList = btick :: "``json".toList from by decide]
    simp [List.isPrefixOf, hba]
  have h2 : "```".toList.isPrefixOf (a :: (m ++ [b])) = false := by
    rw [show "```".toList = btick :: "``".toList from by decide]
    simp [List.isPrefixOf, hba]
  have h3 : "```".toList.isSuffixOf (a :: (m ++ [b])) = false := by
    rw [List.isSuffixOf,
      show "```".toList.reverse = btick :: "``".toList from by decide,
      show (a :: (m ++ [b])).reverse = b :: (m.reverse ++ [a]) from by simp]
    simp [List.isPrefixOf, hbb]
  rw [stripFences]
  rw [h0, h1]
  simp only [Bool.false_eq_true, if_false]
  rw [h2]
  simp only [Bool.false_eq_true, if_false]
  rw [h3]
  simp only [Bool.false_eq_true, if_false]
  exact h0

theorem elemsChars_split (x : List String) :
    ∃ m, elemsChars x = m ++ [']'] := by
  induction x with
  | nil => exact ⟨[], rfl⟩
  | cons s rest ih =>
      cases rest with
      | nil =>
          refine ⟨'"' :: s.toList ++ ['"'], ?_⟩
          rw [elemsChars_one]
          simp
      | cons s2 r2 =>
          obtain ⟨m, hm⟩ := ih
          refine ⟨'"' :: s.toList ++ '"' :: ',' :: ' ' :: m, ?_⟩
          rw [elemsChars_cons2, hm]
          simp

theorem map_pyStrOf_jstr (x : List String) :
    (x.map PyJson.jstr).map pyStrOf = x := by
  induction x with
  | nil => rfl
  | cons s rest ih => simp [pyStrOf, ih]

end InvestorBot

/-- Claim C9: wrapping the canonical serialization of any plain JSON
array of strings in a code fence — with the `json` language tag or with
no tag, or leaving it unwrapped — and running the summarizer's response
normalizer recovers exactly the original payload. -/
theorem C9_fence_roundtrip (x : List String) (hx : InvestorBot.plainPayload x) :
    InvestorBot.parse_response
        (InvestorBot.wrapJsonFence (InvestorBot.serializeStrList x)) = .ok x
    ∧ InvestorBot.parse_response
        (InvestorBot.wrapBareFence (InvestorBot.serializeStrList x)) = .ok x
    ∧ InvestorBot.parse_response (InvestorBot.serializeStrList x) = .ok x := by
  obtain ⟨m, hm⟩ := InvestorBot.elemsChars_split x
  have hser : InvestorBot.serializeStrList x = '[' :: (m ++ [']']) := by
    rw [InvestorBot.serializeStrList, hm]
  have hj := InvestorBot.jsonLoads_serialize x hx
  have hmap := InvestorBot.map_pyStrOf_jstr x
  refine ⟨?_, ?_, ?_⟩
  · have hs : InvestorBot.stripFences
        (InvestorBot.wrapJsonFence (InvestorBot.serializeStrList x))
        = InvestorBot.serializeStrList x := by
      rw [hser]
      exact InvestorBot.stripFences_wrapJson '[' ']' m (by decide) (by decide)
    simp [InvestorBot.parse_response, hs, hj, hmap]
  · have hs : InvestorBot.stripFences
        (InvestorBot.wrapBareFence (InvestorBot.serializeStrList x))
        = InvestorBot.serializeStrList x := by
      rw [hser]
      exact InvestorBot.stripFences_wrapBare '[' ']' m (by decide) (by decide)
    simp [InvestorBot.parse_response, hs, hj, hmap]
  · have hs : InvestorBot.stripFences (InvestorBot.serializeStrList x)
        = InvestorBot.serializeStrList x := by
      rw [hser]
      exact InvestorBot.stripFences_plain '[' ']' m (by decide) (by decide)
        (by decide) (by decide)
    simp [InvestorBot.parse_response, hs, hj, hmap]

/-- Witness for claim C9 at a concrete payload: the two-element array
`["a", "b"]`, fenced with and without the `json` tag and unfenced, is
recovered exactly. -/
theorem C9_witness :
    InvestorBot.parse_response
        (InvestorBot.wrapJsonFence (InvestorBot.serializeStrList ["a", "b"]))
      = .ok ["a", "b"]
    ∧ InvestorBot.parse_response
        (InvestorBot.wrapBareFence (InvestorBot.serializeStrList ["a", "b"]))
      = .ok ["a", "b"]
    ∧ InvestorBot.parse_response (InvestorBot.serializeStrList ["a", "b"])
      = .ok ["a", "b"] :=
  C9_fence_roundtrip ["a", "b"] (by decide)
